import Mathlib

/-!
Verification of the synchronization engine of the SplitterExpense repository.

Server side: a shallow embedding of the two route handlers in
`apps/backend/src/routes/sync.ts` (`POST /sync/pull` and `POST /sync/push`).
The Prisma transaction table is a list of rows; `findUnique({where:{id}})` is
`List.find?` on the id; `update({where:{id}, data})` rewrites exactly the named
columns of the matching rows; `create` appends a row.  Timestamps (`Date`
values) are naturals (milliseconds since the epoch); JavaScript falsiness of a
possibly-missing JSON field is modelled on `Option` values (`none`, `some ""`,
`some 0` are falsy).

Client side: a shallow embedding of `performSync` and the SecureStore-backed
local list from the mobile sync module (`src/unnamed/part_004`).  The two
network calls are an oracle (`SyncEnv`) giving each call's outcome: a thrown
network error, a `success:false` response, or a `success:true` payload.
-/

namespace ExpenseSync

/-- A row of the server's transaction table, as the push/pull handlers see it. -/
structure StoredTx where
  id : String
  amount : Int
  description : String
  type : String
  categoryId : String
  userId : String
  date : Nat
  updatedAt : Nat
deriving DecidableEq, Repr

/-- A record of a `POST /sync/push` body: every field may be absent. -/
structure ClientPushTx where
  id : Option String
  amount : Option Int
  description : Option String
  type : Option String
  categoryId : Option String
  date : Option Nat
  updatedAt : Option Nat
deriving DecidableEq, Repr

/-- JavaScript falsiness of a possibly-missing string field (`!x`). -/
def falsyS : Option String → Bool
  | none => true
  | some s => s = ""

/-- JavaScript falsiness of a possibly-missing numeric field (`!x`). -/
def falsyI : Option Int → Bool
  | none => true
  | some n => n = 0

/-- JavaScript falsiness of a possibly-missing timestamp field (`!x`). -/
def falsyN : Option Nat → Bool
  | none => true
  | some n => n = 0

/-- The push handler's required-field check:
`!id || !amount || !description || !type || !categoryId || !date`. -/
def missingRequired (tx : ClientPushTx) : Bool :=
  falsyS tx.id || falsyI tx.amount || falsyS tx.description || falsyS tx.type ||
    falsyS tx.categoryId || falsyN tx.date

/-- The id reported in a validation error entry (`id || 'unknown'`). -/
def errIdOf (tx : ClientPushTx) : String :=
  match tx.id with
  | some s => if s = "" then "unknown" else s
  | none => "unknown"

/-- `updatedAt ? new Date(updatedAt) : new Date(0)`: the incoming timestamp
used for the conflict comparison. -/
def clientStamp (tx : ClientPushTx) : Nat := tx.updatedAt.getD 0

/-- `updatedAt ? new Date(updatedAt) : new Date()`: the timestamp stored when
the handler creates a fresh row (`now` is the server clock). -/
def createStamp (now : Nat) : Option Nat → Nat
  | none => now
  | some t => if t = 0 then now else t

/-- The row `prisma.transaction.create` inserts for a fresh id. -/
def createdRow (userId : String) (now : Nat) (tx : ClientPushTx) : StoredTx :=
  { id := tx.id.getD ""
    amount := tx.amount.getD 0
    description := tx.description.getD ""
    type := tx.type.getD ""
    categoryId := tx.categoryId.getD ""
    userId := userId
    date := tx.date.getD 0
    updatedAt := createStamp now tx.updatedAt }

/-- The columns `prisma.transaction.update` rewrites when the client's
timestamp wins; the client's `updatedAt` is stored, `userId` is untouched. -/
def overwriteRow (tx : ClientPushTx) (r : StoredTx) : StoredTx :=
  { r with
    amount := tx.amount.getD 0
    description := tx.description.getD ""
    type := tx.type.getD ""
    categoryId := tx.categoryId.getD ""
    date := tx.date.getD 0
    updatedAt := clientStamp tx }

/-- The equal-timestamp update: same columns, but `updatedAt` is not in the
`data` object, so it is left as stored. -/
def tieRow (tx : ClientPushTx) (r : StoredTx) : StoredTx :=
  { r with
    amount := tx.amount.getD 0
    description := tx.description.getD ""
    type := tx.type.getD ""
    categoryId := tx.categoryId.getD ""
    date := tx.date.getD 0 }

/-- What one loop iteration of the push handler did with one record. -/
inductive Outcome where
  | created
  | updated
  | conflicted
  | errored (id error : String)
deriving DecidableEq, Repr

/-- One iteration of the push handler's loop: validate, look the id up,
then create / overwrite / count a conflict / tie-update. -/
def processClientTx (userId : String) (now : Nat) (db : List StoredTx)
    (tx : ClientPushTx) : List StoredTx × Outcome :=
  if missingRequired tx then
    (db, .errored (errIdOf tx) "Missing required fields")
  else
    let vid := tx.id.getD ""
    match db.find? (fun r => r.id = vid) with
    | some existing =>
        if existing.updatedAt < clientStamp tx then
          (db.map (fun r => if r.id = vid then overwriteRow tx r else r), .updated)
        else if clientStamp tx < existing.updatedAt then
          (db, .conflicted)
        else
          (db.map (fun r => if r.id = vid then tieRow tx r else r), .updated)
    | none =>
        (db ++ [createdRow userId now tx], .created)

/-- The push handler's loop over the batch: the table evolves record by
record and each record yields one `Outcome`, in batch order. -/
def pushRun (userId : String) (now : Nat) (db : List StoredTx) :
    List ClientPushTx → List StoredTx × List Outcome
  | [] => (db, [])
  | t :: ts =>
      let p := processClientTx userId now db t
      let rest := pushRun userId now p.1 ts
      (rest.1, p.2 :: rest.2)

/-- The `results` object the push handler responds with. -/
structure PushResults where
  created : Nat
  updated : Nat
  conflicts : Nat
  errors : List (String × String)
deriving DecidableEq, Repr

/-- Folding the per-record outcomes into the response counters, in order. -/
def resultsOf : List Outcome → PushResults
  | [] => ⟨0, 0, 0, []⟩
  | o :: os =>
      let r := resultsOf os
      match o with
      | .created => { r with created := r.created + 1 }
      | .updated => { r with updated := r.updated + 1 }
      | .conflicted => { r with conflicts := r.conflicts + 1 }
      | .errored i e => { r with errors := (i, e) :: r.errors }

/-- The whole `POST /sync/push` handler body: final table and response. -/
def pushHandler (userId : String) (now : Nat) (db : List StoredTx)
    (txs : List ClientPushTx) : List StoredTx × PushResults :=
  let r := pushRun userId now db txs
  (r.1, resultsOf r.2)

/-- Ordering used by the pull handler's `orderBy: { updatedAt: 'asc' }`. -/
def txLE (a b : StoredTx) : Prop := a.updatedAt ≤ b.updatedAt

instance : DecidableRel txLE := fun a b => Nat.decLe a.updatedAt b.updatedAt

instance : IsTotal StoredTx txLE := ⟨fun a b => Nat.le_total a.updatedAt b.updatedAt⟩

instance : IsTrans StoredTx txLE := ⟨fun _ _ _ => Nat.le_trans⟩

/-- The `POST /sync/pull` handler: the caller's rows, restricted to
`updatedAt > lastSync` when a cursor is supplied, ascending by `updatedAt`. -/
def pullHandler (db : List StoredTx) (userId : String) (lastSync : Option Nat) :
    List StoredTx :=
  List.insertionSort txLE
    (db.filter (fun r =>
      r.userId = userId &&
        match lastSync with
        | none => true
        | some t => t < r.updatedAt))

/-- The shape of the client's `LocalTransaction` interface: the one
SecureStore list under `local_transactions` holds these. -/
structure LocalTx where
  id : String
  amount : Int
  description : String
  type : String
  categoryId : String
  date : Nat
  updatedAt : Nat
deriving DecidableEq, Repr

/-- The client-persisted state: the `last_sync_timestamp` entry and the
`local_transactions` list (`none` models an absent key). -/
structure ClientState where
  lastSync : Option Nat
  localTxs : List LocalTx
deriving DecidableEq, Repr

/-- The `{created, updated, conflicts}` triple `performSync` reports. -/
structure PushCounts where
  created : Nat
  updated : Nat
  conflicts : Nat
deriving DecidableEq, Repr

/-- The `data` of a `success:true` push response, as the client reads it. -/
structure PushRespData where
  counts : PushCounts
  serverTime : Nat
deriving DecidableEq, Repr

/-- The `data` of a `success:true` pull response, as the client reads it. -/
structure PullRespData where
  transactions : List LocalTx
  serverTime : Nat
deriving DecidableEq, Repr

/-- Outcome of one network call: a thrown transport error (caught by the
client), a `success:false` response, or a `success:true` payload. -/
inductive NetResp (α : Type) where
  | err
  | noSuccess
  | ok (d : α)
deriving DecidableEq, Repr

/-- The oracle for one `performSync` cycle: what `apiClient.syncPush` and
`apiClient.syncPull` would come back with if called. -/
structure SyncEnv where
  pushResp : NetResp PushRespData
  pullResp : NetResp PullRespData

/-- The value `performSync` resolves with. -/
structure SyncResult where
  success : Bool
  pulled : Nat
  pushed : PushCounts
deriving DecidableEq, Repr

/-- The batch a `performSync` cycle hands to `apiClient.syncPush`: the whole
`local_transactions` list as read at the start of the cycle (the push step is
skipped when it is empty). -/
def sentPushBatch (s : ClientState) : List LocalTx := s.localTxs

/-- Step 1 of `performSync`: if the local list is non-empty, push it; on a
`success:true` response adopt the counts, clear the list and set the cursor
to the push `serverTime`; a thrown error or a `success:false` response
changes nothing (the error is caught and the cycle continues). -/
def afterPushStep (env : SyncEnv) (s : ClientState) : ClientState × PushCounts :=
  if (sentPushBatch s).isEmpty then (s, ⟨0, 0, 0⟩)
  else
    match env.pushResp with
    | .ok d => ({ lastSync := some d.serverTime, localTxs := [] }, d.counts)
    | _ => (s, ⟨0, 0, 0⟩)

/-- One whole `performSync` cycle over the oracle `env`: push step, then pull
step (set the cursor to the pull `serverTime`, and when at least one
transaction came back, append those whose id is not already in the stored
list), then the aggregate result — `success` is `true` on every path that
does not throw out of local storage. -/
def performSync (env : SyncEnv) (s : ClientState) : ClientState × SyncResult :=
  let p := afterPushStep env s
  let s₁ := p.1
  let afterPull :=
    match env.pullResp with
    | .ok d =>
        let s₂ : ClientState := { s₁ with lastSync := some d.serverTime }
        if d.transactions.isEmpty then (s₂, d.transactions.length)
        else
          let existing := s₂.localTxs
          let newTxs := d.transactions.filter
            (fun t : LocalTx => !(existing.any (fun e => e.id = t.id)))
          ({ s₂ with localTxs := existing ++ newTxs }, d.transactions.length)
    | _ => (s₁, 0)
  (afterPull.1, { success := true, pulled := afterPull.2, pushed := p.2 })

/-- `upsertLocalTransaction` from the client module: replace the first entry
with the same id, or append. -/
def upsertLocalTransaction : List LocalTx → LocalTx → List LocalTx
  | [], t => [t]
  | e :: es, t => if e.id = t.id then t :: es else e :: upsertLocalTransaction es t

/-! ### Helper lemmas about the push handler -/

theorem find_id_none {db : List StoredTx} {i : String} (h : ∀ r ∈ db, r.id ≠ i) :
    db.find? (fun r => r.id = i) = none := by
  induction db with
  | nil => rfl
  | cons a as ih =>
      have ha : a.id ≠ i := h a (List.mem_cons_self a as)
      simp only [List.find?_cons, decide_eq_false ha]
      exact ih (fun r hr => h r (List.mem_cons_of_mem a hr))

theorem map_noop {db : List StoredTx} {f : StoredTx → StoredTx}
    (h : ∀ r ∈ db, f r = r) : db.map f = db := by
  induction db with
  | nil => rfl
  | cons a as ih =>
      simp only [List.map_cons, h a (List.mem_cons_self a as)]
      rw [ih (fun r hr => h r (List.mem_cons_of_mem a hr))]

theorem processClientTx_invalid (u : String) (now : Nat) (db : List StoredTx)
    (tx : ClientPushTx) (h : missingRequired tx = true) :
    processClientTx u now db tx = (db, .errored (errIdOf tx) "Missing required fields") := by
  simp [processClientTx, h]

theorem processClientTx_create (u : String) (now : Nat) (db : List StoredTx)
    (tx : ClientPushTx) (hv : missingRequired tx = false)
    (hf : db.find? (fun r => r.id = tx.id.getD "") = none) :
    processClientTx u now db tx = (db ++ [createdRow u now tx], .created) := by
  simp [processClientTx, hv, hf]

theorem processClientTx_overwrite (u : String) (now : Nat) (db : List StoredTx)
    (tx : ClientPushTx) (r₀ : StoredTx) (hv : missingRequired tx = false)
    (hf : db.find? (fun r => r.id = tx.id.getD "") = some r₀)
    (hlt : r₀.updatedAt < clientStamp tx) :
    processClientTx u now db tx
      = (db.map (fun r => if r.id = tx.id.getD "" then overwriteRow tx r else r), .updated) := by
  simp [processClientTx, hv, hf, hlt]

theorem processClientTx_conflict (u : String) (now : Nat) (db : List StoredTx)
    (tx : ClientPushTx) (r₀ : StoredTx) (hv : missingRequired tx = false)
    (hf : db.find? (fun r => r.id = tx.id.getD "") = some r₀)
    (hgt : clientStamp tx < r₀.updatedAt) :
    processClientTx u now db tx = (db, .conflicted) := by
  simp [processClientTx, hv, hf, Nat.not_lt.mpr (Nat.le_of_lt hgt), hgt]

theorem processClientTx_tie (u : String) (now : Nat) (db : List StoredTx)
    (tx : ClientPushTx) (r₀ : StoredTx) (hv : missingRequired tx = false)
    (hf : db.find? (fun r => r.id = tx.id.getD "") = some r₀)
    (heq : r₀.updatedAt = clientStamp tx) :
    processClientTx u now db tx
      = (db.map (fun r => if r.id = tx.id.getD "" then tieRow tx r else r), .updated) := by
  simp [processClientTx, hv, hf, heq, Nat.lt_irrefl]

theorem pushRun_cons (u : String) (now : Nat) (db : List StoredTx)
    (t : ClientPushTx) (ts : List ClientPushTx) :
    pushRun u now db (t :: ts)
      = ((pushRun u now (processClientTx u now db t).1 ts).1,
         (processClientTx u now db t).2
           :: (pushRun u now (processClientTx u now db t).1 ts).2) := rfl

theorem pushRun_append (u : String) (now : Nat) (xs ys : List ClientPushTx) :
    ∀ db : List StoredTx,
    pushRun u now db (xs ++ ys)
      = ((pushRun u now (pushRun u now db xs).1 ys).1,
         (pushRun u now db xs).2 ++ (pushRun u now (pushRun u now db xs).1 ys).2) := by
  induction xs with
  | nil => intro db; rfl
  | cons x xs ih =>
      intro db
      simp only [List.cons_append, pushRun_cons, ih]

theorem resultsOf_append (os₁ os₂ : List Outcome) :
    resultsOf (os₁ ++ os₂)
      = ⟨(resultsOf os₁).created + (resultsOf os₂).created,
         (resultsOf os₁).updated + (resultsOf os₂).updated,
         (resultsOf os₁).conflicts + (resultsOf os₂).conflicts,
         (resultsOf os₁).errors ++ (resultsOf os₂).errors⟩ := by
  induction os₁ with
  | nil => simp [resultsOf]
  | cons o os ih =>
      cases o <;> simp [resultsOf, ih] <;> omega

/-! ### The claims -/

/-- C3: the pull handler with no cursor returns exactly the caller's
transaction history, with a cursor exactly the caller's transactions with
`updatedAt` strictly greater than it, in ascending `updatedAt` order. -/
theorem pullHandler_contract (db : List StoredTx) (u : String) (t : Nat) :
    (∀ r : StoredTx, r ∈ pullHandler db u none ↔ r ∈ db ∧ r.userId = u)
    ∧ (∀ r : StoredTx,
        r ∈ pullHandler db u (some t) ↔ r ∈ db ∧ r.userId = u ∧ t < r.updatedAt)
    ∧ List.Sorted txLE (pullHandler db u none)
    ∧ List.Sorted txLE (pullHandler db u (some t))
    ∧ (pullHandler db u none).Perm (db.filter (fun r => r.userId = u)) := by
  refine ⟨?_, ?_, ?_, ?_, ?_⟩
  · intro r
    rw [pullHandler, (List.perm_insertionSort txLE _).mem_iff, List.mem_filter]
    simp
  · intro r
    rw [pullHandler, (List.perm_insertionSort txLE _).mem_iff, List.mem_filter]
    simp [and_assoc]
  · exact List.sorted_insertionSort txLE _
  · exact List.sorted_insertionSort txLE _
  · refine (List.perm_insertionSort txLE _).trans (List.Perm.of_eq ?_)
    apply List.filter_congr
    intro r _
    simp

/-- C7: when a pushed record's id exists on the server with a strictly
greater stored `updatedAt`, the push handler discards the incoming record,
counts one conflict, and leaves the table — every field of the stored
record included — unchanged. -/
theorem pushHandler_conflict_frame (u : String) (now : Nat) (db : List StoredTx)
    (tx : ClientPushTx) (r₀ : StoredTx)
    (hv : missingRequired tx = false)
    (hf : db.find? (fun r => r.id = tx.id.getD "") = some r₀)
    (hgt : clientStamp tx < r₀.updatedAt) :
    processClientTx u now db tx = (db, .conflicted)
    ∧ pushHandler u now db [tx] = (db, ⟨0, 0, 1, []⟩) := by
  have h := processClientTx_conflict u now db tx r₀ hv hf hgt
  refine ⟨h, ?_⟩
  simp [pushHandler, pushRun, h, resultsOf]

/-- Witness for C7 at a concrete table and record. -/
theorem pushHandler_conflict_frame_witness :
    processClientTx "u" 100
        [⟨"a", 10, "lunch", "expense", "c1", "alice", 5, 9⟩]
        ⟨some "a", some 3, some "stale", some "expense", some "c1", some 4, some 7⟩
      = ([⟨"a", 10, "lunch", "expense", "c1", "alice", 5, 9⟩], .conflicted)
    ∧ pushHandler "u" 100
        [⟨"a", 10, "lunch", "expense", "c1", "alice", 5, 9⟩]
        [⟨some "a", some 3, some "stale", some "expense", some "c1", some 4, some 7⟩]
      = ([⟨"a", 10, "lunch", "expense", "c1", "alice", 5, 9⟩], ⟨0, 0, 1, []⟩) :=
  pushHandler_conflict_frame "u" 100
    [⟨"a", 10, "lunch", "expense", "c1", "alice", 5, 9⟩]
    ⟨some "a", some 3, some "stale", some "expense", some "c1", some 4, some 7⟩
    ⟨"a", 10, "lunch", "expense", "c1", "alice", 5, 9⟩
    (by decide) (by decide) (by decide)

/-- C1: last-write-wins is commutative — two pushes of the same id with
timestamps `T₁ < T₂`, both valid, arriving in either order over a table that
does not yet hold the id, leave the stored record equal to the `T₂` payload,
with the client's `T₂` timestamp stored as is (never re-stamped with the
server clock, whatever `now` is at each request). -/
theorem push_lww_commutes (db : List StoredTx) (u : String)
    (now₁ now₂ now₃ now₄ : Nat) (p₁ p₂ : ClientPushTx) (i : String) (T₁ T₂ : Nat)
    (hid₁ : p₁.id = some i) (hid₂ : p₂.id = some i)
    (ht₁ : p₁.updatedAt = some T₁) (ht₂ : p₂.updatedAt = some T₂)
    (hpos : 0 < T₁) (hlt : T₁ < T₂)
    (hv₁ : missingRequired p₁ = false) (hv₂ : missingRequired p₂ = false)
    (hdb : ∀ r ∈ db, r.id ≠ i) :
    (pushHandler u now₂ (pushHandler u now₁ db [p₁]).1 [p₂]).1
      = (pushHandler u now₄ (pushHandler u now₃ db [p₂]).1 [p₁]).1
    ∧ (pushHandler u now₂ (pushHandler u now₁ db [p₁]).1 [p₂]).1
      = db ++ [{ id := i, amount := p₂.amount.getD 0,
                 description := p₂.description.getD "", type := p₂.type.getD "",
                 categoryId := p₂.categoryId.getD "", userId := u,
                 date := p₂.date.getD 0, updatedAt := T₂ }]
    ∧ (pushHandler u now₂ (pushHandler u now₁ db [p₁]).1 [p₂]).2 = ⟨0, 1, 0, []⟩
    ∧ (pushHandler u now₄ (pushHandler u now₃ db [p₂]).1 [p₁]).2 = ⟨0, 0, 1, []⟩ := by
  have hvid₁ : p₁.id.getD "" = i := by rw [hid₁]; rfl
  have hvid₂ : p₂.id.getD "" = i := by rw [hid₂]; rfl
  have hcs₁ : clientStamp p₁ = T₁ := by simp [clientStamp, ht₁]
  have hcs₂ : clientStamp p₂ = T₂ := by simp [clientStamp, ht₂]
  have hn₁ : T₁ ≠ 0 := Nat.pos_iff_ne_zero.mp hpos
  have hn₂ : T₂ ≠ 0 := Nat.pos_iff_ne_zero.mp (hpos.trans hlt)
  -- order A, first request: fresh id, so a row is created with stamp T₁
  have hfA : db.find? (fun r => r.id = p₁.id.getD "") = none := by
    rw [hvid₁]; exact find_id_none hdb
  have eA₁ := processClientTx_create u now₁ db p₁ hv₁ hfA
  have hrowAid : (createdRow u now₁ p₁).id = i := by simp [createdRow, hvid₁]
  have hrowAupd : (createdRow u now₁ p₁).updatedAt = T₁ := by
    simp [createdRow, ht₁, createStamp, hn₁]
  -- order A, second request: the created row is found and overwritten
  have hfA₂ : (db ++ [createdRow u now₁ p₁]).find? (fun r => r.id = p₂.id.getD "")
      = some (createdRow u now₁ p₁) := by
    rw [hvid₂, List.find?_append, find_id_none hdb]
    simp [List.find?, hrowAid]
  have eA₂ := processClientTx_overwrite u now₂ (db ++ [createdRow u now₁ p₁]) p₂
    (createdRow u now₁ p₁) hv₂ hfA₂ (by rw [hrowAupd, hcs₂]; exact hlt)
  have hmapA : (db ++ [createdRow u now₁ p₁]).map
      (fun r => if r.id = p₂.id.getD "" then overwriteRow p₂ r else r)
      = db ++ [overwriteRow p₂ (createdRow u now₁ p₁)] := by
    rw [List.map_append]
    congr 1
    · exact map_noop (fun r hr => by
        rw [if_neg]; rw [hvid₂]; exact hdb r hr)
    · simp [hrowAid, hvid₂]
  have hfinalA : overwriteRow p₂ (createdRow u now₁ p₁)
      = { id := i, amount := p₂.amount.getD 0,
          description := p₂.description.getD "", type := p₂.type.getD "",
          categoryId := p₂.categoryId.getD "", userId := u,
          date := p₂.date.getD 0, updatedAt := T₂ } := by
    simp [overwriteRow, createdRow, hvid₁, hcs₂]
  -- order B, first request: fresh id, so a row is created with stamp T₂
  have hfB : db.find? (fun r => r.id = p₂.id.getD "") = none := by
    rw [hvid₂]; exact find_id_none hdb
  have eB₁ := processClientTx_create u now₃ db p₂ hv₂ hfB
  have hrowBid : (createdRow u now₃ p₂).id = i := by simp [createdRow, hvid₂]
  have hrowBupd : (createdRow u now₃ p₂).updatedAt = T₂ := by
    simp [createdRow, ht₂, createStamp, hn₂]
  -- order B, second request: the stored stamp T₂ beats T₁, a conflict
  have hfB₂ : (db ++ [createdRow u now₃ p₂]).find? (fun r => r.id = p₁.id.getD "")
      = some (createdRow u now₃ p₂) := by
    rw [hvid₁, List.find?_append, find_id_none hdb]
    simp [List.find?, hrowBid]
  have eB₂ := processClientTx_conflict u now₄ (db ++ [createdRow u now₃ p₂]) p₁
    (createdRow u now₃ p₂) hv₁ hfB₂ (by rw [hrowBupd, hcs₁]; exact hlt)
  have hfinalB : createdRow u now₃ p₂
      = { id := i, amount := p₂.amount.getD 0,
          description := p₂.description.getD "", type := p₂.type.getD "",
          categoryId := p₂.categoryId.getD "", userId := u,
          date := p₂.date.getD 0, updatedAt := T₂ } := by
    simp [createdRow, hvid₂, ht₂, createStamp, hn₂]
  have endA : (pushHandler u now₂ (pushHandler u now₁ db [p₁]).1 [p₂]).1
      = db ++ [{ id := i, amount := p₂.amount.getD 0,
                 description := p₂.description.getD "", type := p₂.type.getD "",
                 categoryId := p₂.categoryId.getD "", userId := u,
                 date := p₂.date.getD 0, updatedAt := T₂ }] := by
    simp [pushHandler, pushRun, eA₁, eA₂, hmapA, hfinalA]
  have endB : (pushHandler u now₄ (pushHandler u now₃ db [p₂]).1 [p₁]).1
      = db ++ [{ id := i, amount := p₂.amount.getD 0,
                 description := p₂.description.getD "", type := p₂.type.getD "",
                 categoryId := p₂.categoryId.getD "", userId := u,
                 date := p₂.date.getD 0, updatedAt := T₂ }] := by
    simp [pushHandler, pushRun, eB₁, eB₂]
    rw [← hfinalB]
  refine ⟨endA.trans endB.symm, endA, ?_, ?_⟩
  · simp [pushHandler, pushRun, eA₁, eA₂, resultsOf]
  · simp [pushHandler, pushRun, eB₁, eB₂, resultsOf]

/-- Witness for C1 at two concrete payloads for id `"x"`. -/
theorem push_lww_commutes_witness :
    (pushHandler "u" 50 (pushHandler "u" 40 [] [⟨some "x", some 1, some "one",
        some "expense", some "c", some 3, some 11⟩]).1
        [⟨some "x", some 2, some "two", some "income", some "c2", some 4, some 22⟩]).1
      = (pushHandler "u" 60 (pushHandler "u" 70 [] [⟨some "x", some 2, some "two",
          some "income", some "c2", some 4, some 22⟩]).1
          [⟨some "x", some 1, some "one", some "expense", some "c", some 3, some 11⟩]).1
    ∧ (pushHandler "u" 50 (pushHandler "u" 40 [] [⟨some "x", some 1, some "one",
        some "expense", some "c", some 3, some 11⟩]).1
        [⟨some "x", some 2, some "two", some "income", some "c2", some 4, some 22⟩]).1
      = [] ++ [{ id := "x",
                 amount := (some (2 : Int)).getD 0,
                 description := (some "two").getD "",
                 type := (some "income").getD "",
                 categoryId := (some "c2").getD "",
                 userId := "u",
                 date := (some 4).getD 0, updatedAt := 22 }]
    ∧ (pushHandler "u" 50 (pushHandler "u" 40 [] [⟨some "x", some 1, some "one",
        some "expense", some "c", some 3, some 11⟩]).1
        [⟨some "x", some 2, some "two", some "income", some "c2", some 4, some 22⟩]).2
      = ⟨0, 1, 0, []⟩
    ∧ (pushHandler "u" 60 (pushHandler "u" 70 [] [⟨some "x", some 2, some "two",
        some "income", some "c2", some 4, some 22⟩]).1
        [⟨some "x", some 1, some "one", some "expense", some "c", some 3, some 11⟩]).2
      = ⟨0, 0, 1, []⟩ :=
  push_lww_commutes [] "u" 40 50 70 60
    ⟨some "x", some 1, some "one", some "expense", some "c", some 3, some 11⟩
    ⟨some "x", some 2, some "two", some "income", some "c2", some 4, some 22⟩
    "x" 11 22 rfl rfl rfl rfl (by decide) (by decide) (by decide) (by decide)
    (by decide)

theorem createStamp_of_ne (now : Nat) (o : Option Nat) (h : o.getD 0 ≠ 0) :
    createStamp now o = o.getD 0 := by
  cases o with
  | none => simp at h
  | some t => simp only [createStamp, Option.getD_some, ite_eq_right_iff]
              intro ht
              exact absurd (by simp [ht]) h

theorem tieRow_createdRow (u : String) (now : Nat) (tx : ClientPushTx) :
    tieRow tx (createdRow u now tx) = createdRow u now tx := by
  simp [tieRow, createdRow]

theorem pushRun_fresh_creates (u : String) (now : Nat) :
    ∀ (txs : List ClientPushTx) (db : List StoredTx),
    (∀ tx ∈ txs, missingRequired tx = false) →
    (txs.map (fun tx => tx.id.getD "")).Nodup →
    (∀ tx ∈ txs, ∀ r ∈ db, r.id ≠ tx.id.getD "") →
    pushRun u now db txs
      = (db ++ txs.map (createdRow u now), txs.map (fun _ => Outcome.created)) := by
  intro txs
  induction txs with
  | nil => intro db _ _ _; simp [pushRun]
  | cons t ts ih =>
      intro db hval hnd hfresh
      have hft : db.find? (fun r => r.id = t.id.getD "") = none :=
        find_id_none (fun r hr => hfresh t (List.mem_cons_self t ts) r hr)
      have e := processClientTx_create u now db t (hval t (List.mem_cons_self t ts)) hft
      rw [pushRun_cons, e]
      have hhead : t.id.getD "" ∉ ts.map (fun tx => tx.id.getD "") :=
        (List.nodup_cons.mp (by simpa using hnd)).1
      have hrest := ih (db ++ [createdRow u now t])
        (fun tx h => hval tx (List.mem_cons_of_mem t h))
        (List.nodup_cons.mp (by simpa using hnd)).2
        (by
          intro tx htx r hr
          rcases List.mem_append.mp hr with hdb | hone
          · exact hfresh tx (List.mem_cons_of_mem t htx) r hdb
          · have hr1 : r = createdRow u now t := by simpa using hone
            subst hr1
            have : (createdRow u now t).id = t.id.getD "" := by simp [createdRow]
            rw [this]
            intro hcontra
            exact hhead (hcontra ▸ List.mem_map_of_mem (fun tx => tx.id.getD "") htx))
      simp only [hrest, List.append_assoc, List.singleton_append, List.map_cons]

theorem pushRun_echo (u : String) (now : Nat) :
    ∀ (txs : List ClientPushTx) (db : List StoredTx),
    (∀ tx ∈ txs, missingRequired tx = false) →
    (∀ tx ∈ txs, ∃ r₀, db.find? (fun r => r.id = tx.id.getD "") = some r₀
        ∧ r₀.updatedAt = clientStamp tx) →
    (∀ tx ∈ txs, ∀ r ∈ db, r.id = tx.id.getD "" → tieRow tx r = r) →
    pushRun u now db txs = (db, txs.map (fun _ => Outcome.updated)) := by
  intro txs
  induction txs with
  | nil => intro db _ _ _; simp [pushRun]
  | cons t ts ih =>
      intro db hval hfound htie
      obtain ⟨r₀, hf, hupd⟩ := hfound t (List.mem_cons_self t ts)
      have e := processClientTx_tie u now db t r₀ (hval t (List.mem_cons_self t ts)) hf hupd
      have hnoop : db.map (fun r => if r.id = t.id.getD "" then tieRow t r else r) = db :=
        map_noop (fun r hr => by
          by_cases h : r.id = t.id.getD ""
          · rw [if_pos h]; exact htie t (List.mem_cons_self t ts) r hr h
          · rw [if_neg h])
      rw [pushRun_cons, e]
      simp only [hnoop]
      have hrest := ih db (fun tx h => hval tx (List.mem_cons_of_mem t h))
        (fun tx h => hfound tx (List.mem_cons_of_mem t h))
        (fun tx h => htie tx (List.mem_cons_of_mem t h))
      simp [hrest]

theorem find_in_created (u : String) (now : Nat) :
    ∀ (txs : List ClientPushTx) (tx : ClientPushTx),
    tx ∈ txs → (txs.map (fun t => t.id.getD "")).Nodup →
    (txs.map (createdRow u now)).find? (fun r => r.id = tx.id.getD "")
      = some (createdRow u now tx) := by
  intro txs
  induction txs with
  | nil => intro tx h _; exact absurd h (List.not_mem_nil tx)
  | cons t ts ih =>
      intro tx htx hnd
      rcases List.mem_cons.mp htx with heq | hmem
      · subst heq
        simp [List.find?_cons, createdRow]
      · have hhead : t.id.getD "" ∉ ts.map (fun x => x.id.getD "") :=
          (List.nodup_cons.mp (by simpa using hnd)).1
        have hne : (createdRow u now t).id ≠ tx.id.getD "" := by
          simp only [createdRow]
          intro hcontra
          exact hhead (hcontra ▸ List.mem_map_of_mem (fun x => x.id.getD "") hmem)
        simp only [List.map_cons, List.find?_cons, decide_eq_false hne]
        exact ih tx hmem (List.nodup_cons.mp (by simpa using hnd)).2

theorem resultsOf_replicate_created (n : Nat) :
    resultsOf (List.replicate n Outcome.created) = ⟨n, 0, 0, []⟩ := by
  induction n with
  | zero => rfl
  | succ n ih => simp [List.replicate_succ, resultsOf, ih]

theorem resultsOf_replicate_updated (n : Nat) :
    resultsOf (List.replicate n Outcome.updated) = ⟨0, n, 0, []⟩ := by
  induction n with
  | zero => rfl
  | succ n ih => simp [List.replicate_succ, resultsOf, ih]

/-- C2 as amended: re-pushing an already-applied batch (valid records,
distinct truthy ids and truthy `updatedAt` values, ids fresh for the table)
leaves the table bit-for-bit unchanged and yields `created = 0` and
`conflicts = 0`, but the equal-timestamp tie-break takes the update branch,
so the second response reports every record as updated (`updated = n`), not
`updated = 0`. -/
theorem push_retry_counts (u : String) (now₁ now₂ : Nat) (db : List StoredTx)
    (txs : List ClientPushTx)
    (hval : ∀ tx ∈ txs, missingRequired tx = false)
    (hts : ∀ tx ∈ txs, tx.updatedAt.getD 0 ≠ 0)
    (hnodup : (txs.map (fun tx => tx.id.getD "")).Nodup)
    (hfresh : ∀ tx ∈ txs, ∀ r ∈ db, r.id ≠ tx.id.getD "") :
    (pushHandler u now₂ (pushHandler u now₁ db txs).1 txs).1
      = (pushHandler u now₁ db txs).1
    ∧ (pushHandler u now₂ (pushHandler u now₁ db txs).1 txs).2
      = ⟨0, txs.length, 0, []⟩
    ∧ (pushHandler u now₁ db txs).2 = ⟨txs.length, 0, 0, []⟩ := by
  have hfirst := pushRun_fresh_creates u now₁ txs db hval hnodup hfresh
  have hdb₁ : (pushHandler u now₁ db txs).1 = db ++ txs.map (createdRow u now₁) := by
    simp [pushHandler, hfirst]
  have hsecond : pushRun u now₂ (db ++ txs.map (createdRow u now₁)) txs
      = (db ++ txs.map (createdRow u now₁), txs.map (fun _ => Outcome.updated)) := by
    apply pushRun_echo u now₂ txs _ hval
    · intro tx htx
      refine ⟨createdRow u now₁ tx, ?_, ?_⟩
      · rw [List.find?_append, find_id_none (fun r hr => hfresh tx htx r hr),
          find_in_created u now₁ txs tx htx hnodup]
        rfl
      · simp [createdRow, clientStamp, createStamp_of_ne now₁ tx.updatedAt (hts tx htx)]
    · intro tx htx r hr hid
      rcases List.mem_append.mp hr with hdb | hmap
      · exact absurd hid (hfresh tx htx r hdb)
      · obtain ⟨tx', htx', rfl⟩ := List.mem_map.mp hmap
        have hid' : tx'.id.getD "" = tx.id.getD "" := by simpa [createdRow] using hid
        have heqtx : tx' = tx := List.inj_on_of_nodup_map hnodup htx' htx hid'
        subst heqtx
        exact tieRow_createdRow u now₁ tx'
  refine ⟨?_, ?_, ?_⟩
  · rw [hdb₁]
    simp [pushHandler, hsecond]
  · rw [hdb₁]
    simp [pushHandler, hsecond, resultsOf_replicate_updated]
  · simp [pushHandler, hfirst, resultsOf_replicate_created]

/-- Witness for (amended) C2 at one concrete record. -/
theorem push_retry_counts_witness :
    (pushHandler "u" 200 (pushHandler "u" 100 []
        [⟨some "a", some 5, some "d", some "expense", some "c", some 10, some 7⟩]).1
        [⟨some "a", some 5, some "d", some "expense", some "c", some 10, some 7⟩]).1
      = (pushHandler "u" 100 []
          [⟨some "a", some 5, some "d", some "expense", some "c", some 10, some 7⟩]).1
    ∧ (pushHandler "u" 200 (pushHandler "u" 100 []
        [⟨some "a", some 5, some "d", some "expense", some "c", some 10, some 7⟩]).1
        [⟨some "a", some 5, some "d", some "expense", some "c", some 10, some 7⟩]).2
      = ⟨0, 1, 0, []⟩
    ∧ (pushHandler "u" 100 []
        [⟨some "a", some 5, some "d", some "expense", some "c", some 10, some 7⟩]).2
      = ⟨1, 0, 0, []⟩ :=
  push_retry_counts "u" 100 200 []
    [⟨some "a", some 5, some "d", some "expense", some "c", some 10, some 7⟩]
    (by decide) (by decide) (by decide) (by decide)

/-- Counterexample to C2 as stated: pushing the same valid one-record batch
twice yields `updated = 1` on the second call, not `updated = 0`. -/
theorem push_retry_updated_cex :
    (pushHandler "u" 200 (pushHandler "u" 100 []
        [⟨some "a", some 5, some "d", some "expense", some "c", some 10, some 7⟩]).1
        [⟨some "a", some 5, some "d", some "expense", some "c", some 10, some 7⟩]).2
      = ⟨0, 1, 0, []⟩
    ∧ ¬ ((pushHandler "u" 200 (pushHandler "u" 100 []
        [⟨some "a", some 5, some "d", some "expense", some "c", some 10, some 7⟩]).1
        [⟨some "a", some 5, some "d", some "expense", some "c", some 10, some 7⟩]).2.updated
          = 0) := by decide

/-! ### Helper lemmas about the sync client -/

theorem afterPushStep_err (env : SyncEnv) (s : ClientState)
    (h : env.pushResp = .err) : afterPushStep env s = (s, ⟨0, 0, 0⟩) := by
  simp only [afterPushStep, h]
  by_cases he : (sentPushBatch s).isEmpty <;> simp [he]

theorem afterPushStep_cases (env : SyncEnv) (s : ClientState) :
    (afterPushStep env s).1.localTxs = [] ∨ (afterPushStep env s).1 = s := by
  simp only [afterPushStep]
  by_cases he : (sentPushBatch s).isEmpty
  · simp [he]
  · cases hp : env.pushResp <;> simp [he]

/-- C6 as amended: a network failure of both the push and the pull call still
returns `success = true` (with zero counts and the client state untouched);
`performSync` reports `success = false` only when a local-storage operation
throws, never for network failures. -/
theorem total_network_failure (env : SyncEnv) (s : ClientState)
    (hpush : env.pushResp = .err) (hpull : env.pullResp = .err) :
    performSync env s = (s, { success := true, pulled := 0, pushed := ⟨0, 0, 0⟩ }) := by
  simp [performSync, afterPushStep_err env s hpush, hpull]

/-- Witness for (amended) C6 at a concrete state. -/
theorem total_network_failure_witness :
    performSync ⟨.err, .err⟩ ⟨some 5, [⟨"a", 1, "old", "expense", "c", 1, 1⟩]⟩
      = (⟨some 5, [⟨"a", 1, "old", "expense", "c", 1, 1⟩]⟩,
         { success := true, pulled := 0, pushed := ⟨0, 0, 0⟩ }) :=
  total_network_failure ⟨.err, .err⟩
    ⟨some 5, [⟨"a", 1, "old", "expense", "c", 1, 1⟩]⟩ rfl rfl

/-- Counterexample to C6 as stated: with both network calls failing, the
returned result still has `success = true`, not `success = false`. -/
theorem total_failure_success_cex :
    (performSync ⟨.err, .err⟩
        ⟨some 5, [⟨"a", 1, "old", "expense", "c", 1, 1⟩]⟩).2.success = true
    ∧ ¬ ((performSync ⟨.err, .err⟩
        ⟨some 5, [⟨"a", 1, "old", "expense", "c", 1, 1⟩]⟩).2.success = false) := by
  decide

/-- C5 as amended: when the push call fails with a network error and the pull
succeeds with `N > 0` transactions, `performSync` does not abort — the pull
still runs, the cursor advances, the result is
`success = true, pulled = N, pushed = {0,0,0}` — and the pending queue is not
cleared: every previously queued entry is still present; however the queue is
not left untouched, because pulled transactions with fresh ids are appended
to the same list. -/
theorem push_failure_isolation (env : SyncEnv) (s : ClientState) (d : PullRespData)
    (_hq : s.localTxs ≠ [])
    (hpush : env.pushResp = .err)
    (hpull : env.pullResp = .ok d)
    (hN : d.transactions ≠ []) :
    (performSync env s).2
      = { success := true, pulled := d.transactions.length, pushed := ⟨0, 0, 0⟩ }
    ∧ (performSync env s).1.lastSync = some d.serverTime
    ∧ (performSync env s).1.localTxs
      = s.localTxs ++ d.transactions.filter
          (fun t : LocalTx => !(s.localTxs.any (fun e => e.id = t.id)))
    ∧ ∀ e ∈ s.localTxs, e ∈ (performSync env s).1.localTxs := by
  have hstep := afterPushStep_err env s hpush
  have hne : d.transactions.isEmpty = false := by
    cases h : d.transactions with
    | nil => exact absurd h hN
    | cons a l => rfl
  refine ⟨?_, ?_, ?_, ?_⟩
  · simp [performSync, hstep, hpull, hne]
  · simp [performSync, hstep, hpull, hne]
  · simp [performSync, hstep, hpull, hne]
  · intro e he
    simp only [performSync, hstep, hpull, hne]
    simp [List.mem_append, he]

/-- Witness for (amended) C5 at a concrete queue and pull window. -/
theorem push_failure_isolation_witness :
    (performSync ⟨.err, .ok ⟨[⟨"b", 2, "srv", "expense", "c", 1, 9⟩], 50⟩⟩
        ⟨none, [⟨"a", 1, "old", "expense", "c", 1, 1⟩]⟩).2
      = { success := true, pulled := 1, pushed := ⟨0, 0, 0⟩ }
    ∧ (performSync ⟨.err, .ok ⟨[⟨"b", 2, "srv", "expense", "c", 1, 9⟩], 50⟩⟩
        ⟨none, [⟨"a", 1, "old", "expense", "c", 1, 1⟩]⟩).1.lastSync = some 50
    ∧ (performSync ⟨.err, .ok ⟨[⟨"b", 2, "srv", "expense", "c", 1, 9⟩], 50⟩⟩
        ⟨none, [⟨"a", 1, "old", "expense", "c", 1, 1⟩]⟩).1.localTxs
      = [⟨"a", 1, "old", "expense", "c", 1, 1⟩]
          ++ [⟨"b", 2, "srv", "expense", "c", 1, 9⟩].filter
              (fun t : LocalTx =>
                !([(⟨"a", 1, "old", "expense", "c", 1, 1⟩ : LocalTx)].any
                    (fun e => e.id = t.id)))
    ∧ ∀ e ∈ [(⟨"a", 1, "old", "expense", "c", 1, 1⟩ : LocalTx)],
        e ∈ (performSync ⟨.err, .ok ⟨[⟨"b", 2, "srv", "expense", "c", 1, 9⟩], 50⟩⟩
          ⟨none, [⟨"a", 1, "old", "expense", "c", 1, 1⟩]⟩).1.localTxs :=
  push_failure_isolation
    ⟨.err, .ok ⟨[⟨"b", 2, "srv", "expense", "c", 1, 9⟩], 50⟩⟩
    ⟨none, [⟨"a", 1, "old", "expense", "c", 1, 1⟩]⟩
    ⟨[⟨"b", 2, "srv", "expense", "c", 1, 9⟩], 50⟩
    (by decide) rfl rfl (by decide)

/-- Counterexample to C5 as stated: with the push failing and the pull
returning one fresh transaction, the pending queue is not left untouched —
the pulled record is appended to it. -/
theorem push_failure_queue_cex :
    performSync ⟨.err, .ok ⟨[⟨"b", 2, "srv", "expense", "c", 1, 9⟩], 50⟩⟩
        ⟨none, [⟨"a", 1, "old", "expense", "c", 1, 1⟩]⟩
      = (⟨some 50, [⟨"a", 1, "old", "expense", "c", 1, 1⟩,
                    ⟨"b", 2, "srv", "expense", "c", 1, 9⟩]⟩,
         ⟨true, 1, ⟨0, 0, 0⟩⟩)
    ∧ (performSync ⟨.err, .ok ⟨[⟨"b", 2, "srv", "expense", "c", 1, 9⟩], 50⟩⟩
        ⟨none, [⟨"a", 1, "old", "expense", "c", 1, 1⟩]⟩).1.localTxs
      ≠ [⟨"a", 1, "old", "expense", "c", 1, 1⟩] := by
  decide

/-- C10: a pulled transaction whose id was not already in the stored list is
written into the same SecureStore list that serves as the pending push queue,
so the next `performSync` cycle includes it in the batch it hands to
`apiClient.syncPush`. -/
theorem pulled_into_next_push (env : SyncEnv) (s : ClientState)
    (d : PullRespData) (t : LocalTx)
    (hpull : env.pullResp = .ok d) (ht : t ∈ d.transactions)
    (hnew : ∀ e ∈ (afterPushStep env s).1.localTxs, e.id ≠ t.id) :
    t ∈ (performSync env s).1.localTxs
    ∧ t ∈ sentPushBatch (performSync env s).1 := by
  have hne : d.transactions.isEmpty = false := by
    cases h : d.transactions with
    | nil => rw [h] at ht; exact absurd ht (List.not_mem_nil t)
    | cons a l => rfl
  have hmem : t ∈ (performSync env s).1.localTxs := by
    simp only [performSync, hpull, hne, Bool.false_eq_true, if_false]
    refine List.mem_append.mpr (Or.inr (List.mem_filter.mpr ⟨ht, ?_⟩))
    simp only [Bool.not_eq_true', List.any_eq_false, decide_eq_true_eq]
    intro e he
    exact hnew e he
  exact ⟨hmem, hmem⟩

/-- Witness for C10: a pulled transaction lands in the next push batch. -/
theorem pulled_into_next_push_witness :
    (⟨"b", 2, "srv", "expense", "c", 1, 9⟩ : LocalTx)
      ∈ (performSync ⟨.err, .ok ⟨[⟨"b", 2, "srv", "expense", "c", 1, 9⟩], 50⟩⟩
          ⟨none, [⟨"a", 1, "old", "expense", "c", 1, 1⟩]⟩).1.localTxs
    ∧ (⟨"b", 2, "srv", "expense", "c", 1, 9⟩ : LocalTx)
      ∈ sentPushBatch (performSync
          ⟨.err, .ok ⟨[⟨"b", 2, "srv", "expense", "c", 1, 9⟩], 50⟩⟩
          ⟨none, [⟨"a", 1, "old", "expense", "c", 1, 1⟩]⟩).1 :=
  pulled_into_next_push
    ⟨.err, .ok ⟨[⟨"b", 2, "srv", "expense", "c", 1, 9⟩], 50⟩⟩
    ⟨none, [⟨"a", 1, "old", "expense", "c", 1, 1⟩]⟩
    ⟨[⟨"b", 2, "srv", "expense", "c", 1, 9⟩], 50⟩
    ⟨"b", 2, "srv", "expense", "c", 1, 9⟩
    rfl (by decide) (by decide)

/-- C9: the push handler looks the record up by id alone, with no ownership
check — user `bob`, authenticated as himself, pushes the id of a row owned by
`alice` with a newer timestamp and the handler overwrites her row with his
payload (the row stays owned by `alice`), so what `alice`'s next pull returns
has been changed by `bob`'s push. -/
theorem push_no_ownership_check :
    pushHandler "bob" 1000
        [⟨"t1", 10, "lunch", "expense", "c1", "alice", 5, 10⟩]
        [⟨some "t1", some 99, some "overwritten", some "expense", some "c2",
          some 6, some 20⟩]
      = ([⟨"t1", 99, "overwritten", "expense", "c2", "alice", 6, 20⟩],
         ⟨0, 1, 0, []⟩)
    ∧ pullHandler [⟨"t1", 99, "overwritten", "expense", "c2", "alice", 6, 20⟩]
          "alice" none
        ≠ pullHandler [⟨"t1", 10, "lunch", "expense", "c1", "alice", 5, 10⟩]
          "alice" none := by
  decide

/-- C8 as amended: a record that fails the handler's falsy-field validation —
a required field missing, or present but falsy (`""`, `0`) — contributes
exactly one `{id, error}` entry, in batch position, changes nothing in the
table, and the rest of the batch is processed exactly as if the record were
absent; the request itself never fails. -/
theorem push_validation_isolated (u : String) (now : Nat) (db : List StoredTx)
    (xs ys : List ClientPushTx) (tx : ClientPushTx)
    (hbad : missingRequired tx = true) :
    (pushHandler u now db (xs ++ tx :: ys)).1 = (pushHandler u now db (xs ++ ys)).1
    ∧ (pushHandler u now db (xs ++ tx :: ys)).2.created
        = (pushHandler u now db (xs ++ ys)).2.created
    ∧ (pushHandler u now db (xs ++ tx :: ys)).2.updated
        = (pushHandler u now db (xs ++ ys)).2.updated
    ∧ (pushHandler u now db (xs ++ tx :: ys)).2.conflicts
        = (pushHandler u now db (xs ++ ys)).2.conflicts
    ∧ (pushHandler u now db (xs ++ tx :: ys)).2.errors
        = (pushHandler u now db xs).2.errors
            ++ (errIdOf tx, "Missing required fields")
              :: (pushHandler u now (pushRun u now db xs).1 ys).2.errors := by
  have e := processClientTx_invalid u now (pushRun u now db xs).1 tx hbad
  have hcons : pushRun u now (pushRun u now db xs).1 (tx :: ys)
      = ((pushRun u now (pushRun u now db xs).1 ys).1,
         Outcome.errored (errIdOf tx) "Missing required fields"
           :: (pushRun u now (pushRun u now db xs).1 ys).2) := by
    rw [pushRun_cons, e]
  have h1 := pushRun_append u now xs (tx :: ys) db
  have h2 := pushRun_append u now xs ys db
  refine ⟨?_, ?_, ?_, ?_, ?_⟩ <;>
    simp [pushHandler, h1, h2, hcons, resultsOf_append, resultsOf]

/-- Witness for (amended) C8: a batch of a valid record, a record with no
amount, and another valid record — one error entry, both valid records
processed as if the bad one were absent. -/
theorem push_validation_isolated_witness :
    (pushHandler "u" 7 []
        ([⟨some "g1", some 1, some "a", some "expense", some "c", some 2, some 3⟩]
          ++ (⟨some "bad", none, some "b", some "expense", some "c", some 2,
               some 3⟩ : ClientPushTx)
          :: [⟨some "g2", some 2, some "b", some "income", some "c", some 2,
               some 4⟩])).1
      = (pushHandler "u" 7 []
          ([⟨some "g1", some 1, some "a", some "expense", some "c", some 2, some 3⟩]
            ++ [⟨some "g2", some 2, some "b", some "income", some "c", some 2,
                 some 4⟩])).1
    ∧ (pushHandler "u" 7 []
        ([⟨some "g1", some 1, some "a", some "expense", some "c", some 2, some 3⟩]
          ++ (⟨some "bad", none, some "b", some "expense", some "c", some 2,
               some 3⟩ : ClientPushTx)
          :: [⟨some "g2", some 2, some "b", some "income", some "c", some 2,
               some 4⟩])).2.created
      = (pushHandler "u" 7 []
          ([⟨some "g1", some 1, some "a", some "expense", some "c", some 2, some 3⟩]
            ++ [⟨some "g2", some 2, some "b", some "income", some "c", some 2,
                 some 4⟩])).2.created
    ∧ (pushHandler "u" 7 []
        ([⟨some "g1", some 1, some "a", some "expense", some "c", some 2, some 3⟩]
          ++ (⟨some "bad", none, some "b", some "expense", some "c", some 2,
               some 3⟩ : ClientPushTx)
          :: [⟨some "g2", some 2, some "b", some "income", some "c", some 2,
               some 4⟩])).2.updated
      = (pushHandler "u" 7 []
          ([⟨some "g1", some 1, some "a", some "expense", some "c", some 2, some 3⟩]
            ++ [⟨some "g2", some 2, some "b", some "income", some "c", some 2,
                 some 4⟩])).2.updated
    ∧ (pushHandler "u" 7 []
        ([⟨some "g1", some 1, some "a", some "expense", some "c", some 2, some 3⟩]
          ++ (⟨some "bad", none, some "b", some "expense", some "c", some 2,
               some 3⟩ : ClientPushTx)
          :: [⟨some "g2", some 2, some "b", some "income", some "c", some 2,
               some 4⟩])).2.conflicts
      = (pushHandler "u" 7 []
          ([⟨some "g1", some 1, some "a", some "expense", some "c", some 2, some 3⟩]
            ++ [⟨some "g2", some 2, some "b", some "income", some "c", some 2,
                 some 4⟩])).2.conflicts
    ∧ (pushHandler "u" 7 []
        ([⟨some "g1", some 1, some "a", some "expense", some "c", some 2, some 3⟩]
          ++ (⟨some "bad", none, some "b", some "expense", some "c", some 2,
               some 3⟩ : ClientPushTx)
          :: [⟨some "g2", some 2, some "b", some "income", some "c", some 2,
               some 4⟩])).2.errors
      = (pushHandler "u" 7 []
          [⟨some "g1", some 1, some "a", some "expense", some "c", some 2,
            some 3⟩]).2.errors
          ++ (errIdOf ⟨some "bad", none, some "b", some "expense", some "c",
                some 2, some 3⟩, "Missing required fields")
            :: (pushHandler "u" 7
                (pushRun "u" 7 []
                  [⟨some "g1", some 1, some "a", some "expense", some "c", some 2,
                    some 3⟩]).1
                [⟨some "g2", some 2, some "b", some "income", some "c", some 2,
                  some 4⟩]).2.errors :=
  push_validation_isolated "u" 7 []
    [⟨some "g1", some 1, some "a", some "expense", some "c", some 2, some 3⟩]
    [⟨some "g2", some 2, some "b", some "income", some "c", some 2, some 4⟩]
    ⟨some "bad", none, some "b", some "expense", some "c", some 2, some 3⟩
    (by decide)

/-- Counterexample to C8 as stated: a record with every required field
present — but `amount = 0`, falsy in JavaScript — is not processed normally:
it is skipped with a validation error even though no field is missing. -/
theorem push_validation_falsy_cex :
    (⟨some "a", some 0, some "d", some "expense", some "c", some 10, some 7⟩
        : ClientPushTx).id ≠ none
    ∧ (⟨some "a", some 0, some "d", some "expense", some "c", some 10, some 7⟩
        : ClientPushTx).amount ≠ none
    ∧ (⟨some "a", some 0, some "d", some "expense", some "c", some 10, some 7⟩
        : ClientPushTx).description ≠ none
    ∧ (⟨some "a", some 0, some "d", some "expense", some "c", some 10, some 7⟩
        : ClientPushTx).type ≠ none
    ∧ (⟨some "a", some 0, some "d", some "expense", some "c", some 10, some 7⟩
        : ClientPushTx).categoryId ≠ none
    ∧ (⟨some "a", some 0, some "d", some "expense", some "c", some 10, some 7⟩
        : ClientPushTx).date ≠ none
    ∧ pushHandler "u" 100 []
        [⟨some "a", some 0, some "d", some "expense", some "c", some 10, some 7⟩]
      = ([], ⟨0, 0, 0, [("a", "Missing required fields")]⟩) := by
  decide

/-- C4 as amended: after a successful pull, each returned transaction whose
id is not already in the stored list is appended, while one whose id is
already known is skipped — the existing local value is kept and the pulled
value discarded (not overwritten) — so ids are never duplicated, every pulled
id ends with exactly one entry, and merging the same server window a second
time leaves the list unchanged. -/
theorem client_merge_dedup (env₁ env₂ : SyncEnv) (s : ClientState)
    (d : PullRespData)
    (h₁ : env₁.pullResp = .ok d) (h₂ : env₂.pullResp = .ok d)
    (hp₂ : env₂.pushResp = .err)
    (hs : (s.localTxs.map LocalTx.id).Nodup)
    (hd : (d.transactions.map LocalTx.id).Nodup) :
    (performSync env₁ s).1.localTxs
      = (afterPushStep env₁ s).1.localTxs
        ++ d.transactions.filter
            (fun t : LocalTx =>
              !((afterPushStep env₁ s).1.localTxs.any (fun e => e.id = t.id)))
    ∧ ((performSync env₁ s).1.localTxs.map LocalTx.id).Nodup
    ∧ (∀ t ∈ d.transactions, ∃ e ∈ (performSync env₁ s).1.localTxs, e.id = t.id)
    ∧ (performSync env₂ (performSync env₁ s).1).1.localTxs
        = (performSync env₁ s).1.localTxs := by
  have hLnodup : ((afterPushStep env₁ s).1.localTxs.map LocalTx.id).Nodup := by
    rcases afterPushStep_cases env₁ s with h | h
    · rw [h]; exact List.nodup_nil
    · rw [h]; exact hs
  have hmerge : (performSync env₁ s).1.localTxs
      = (afterPushStep env₁ s).1.localTxs
        ++ d.transactions.filter
            (fun t : LocalTx =>
              !((afterPushStep env₁ s).1.localTxs.any (fun e => e.id = t.id))) := by
    by_cases he : d.transactions.isEmpty
    · have hnil : d.transactions = [] := List.isEmpty_iff.mp he
      simp [performSync, h₁, hnil]
    · simp [performSync, h₁, he]
  have hfilter_nodup : ((d.transactions.filter
      (fun t : LocalTx =>
        !((afterPushStep env₁ s).1.localTxs.any (fun e => e.id = t.id)))).map
          LocalTx.id).Nodup :=
    hd.sublist ((List.filter_sublist d.transactions).map LocalTx.id)
  have hdisj : ((afterPushStep env₁ s).1.localTxs.map LocalTx.id).Disjoint
      ((d.transactions.filter
        (fun t : LocalTx =>
          !((afterPushStep env₁ s).1.localTxs.any (fun e => e.id = t.id)))).map
            LocalTx.id) := by
    intro a haL hafil
    obtain ⟨t, htf, hta⟩ := List.mem_map.mp hafil
    obtain ⟨e, heL, hea⟩ := List.mem_map.mp haL
    have hp := (List.mem_filter.mp htf).2
    have hany : (afterPushStep env₁ s).1.localTxs.any (fun e => e.id = t.id)
        = true :=
      List.any_eq_true.mpr ⟨e, heL, decide_eq_true (by rw [hea, hta])⟩
    rw [hany] at hp
    exact absurd hp (by simp)
  have hnodup₂ : ((performSync env₁ s).1.localTxs.map LocalTx.id).Nodup := by
    rw [hmerge, List.map_append]
    exact List.nodup_append.mpr ⟨hLnodup, hfilter_nodup, hdisj⟩
  have hcover : ∀ t ∈ d.transactions,
      ∃ e ∈ (performSync env₁ s).1.localTxs, e.id = t.id := by
    intro t ht
    by_cases hany : (afterPushStep env₁ s).1.localTxs.any (fun e => e.id = t.id)
        = true
    · obtain ⟨e, heL, hei⟩ := List.any_eq_true.mp hany
      exact ⟨e, by rw [hmerge]; exact List.mem_append_left _ heL,
        of_decide_eq_true hei⟩
    · refine ⟨t, ?_, rfl⟩
      rw [hmerge]
      refine List.mem_append_right _ (List.mem_filter.mpr ⟨ht, ?_⟩)
      simp only [Bool.not_eq_true'] at hany ⊢
      exact Bool.eq_false_iff.mpr hany
  refine ⟨hmerge, hnodup₂, hcover, ?_⟩
  set s₁ := (performSync env₁ s).1 with hs₁def
  have hstep₂ := afterPushStep_err env₂ s₁ hp₂
  by_cases he : d.transactions.isEmpty
  · have hnil : d.transactions = [] := List.isEmpty_iff.mp he
    simp [performSync, h₂, hstep₂, hnil]
  · have hnilf : d.transactions.filter
        (fun t : LocalTx => !(s₁.localTxs.any (fun e => e.id = t.id))) = [] := by
      rw [List.filter_eq_nil_iff]
      intro t ht
      obtain ⟨e, he', hei⟩ := hcover t ht
      have hany : s₁.localTxs.any (fun e => e.id = t.id) = true :=
        List.any_eq_true.mpr ⟨e, he', decide_eq_true hei⟩
      simp [hany]
    simp [performSync, h₂, hstep₂, he, hnilf]

/-- Witness for (amended) C4 at a concrete cache and pull window. -/
theorem client_merge_dedup_witness :
    (performSync ⟨.err, .ok ⟨[⟨"b", 2, "srv", "expense", "c", 1, 9⟩], 50⟩⟩
        ⟨none, [⟨"a", 1, "old", "expense", "c", 1, 1⟩]⟩).1.localTxs
      = (afterPushStep ⟨.err, .ok ⟨[⟨"b", 2, "srv", "expense", "c", 1, 9⟩], 50⟩⟩
          ⟨none, [⟨"a", 1, "old", "expense", "c", 1, 1⟩]⟩).1.localTxs
        ++ [⟨"b", 2, "srv", "expense", "c", 1, 9⟩].filter
            (fun t : LocalTx =>
              !((afterPushStep
                  ⟨.err, .ok ⟨[⟨"b", 2, "srv", "expense", "c", 1, 9⟩], 50⟩⟩
                  ⟨none, [⟨"a", 1, "old", "expense", "c", 1, 1⟩]⟩).1.localTxs.any
                    (fun e => e.id = t.id)))
    ∧ ((performSync ⟨.err, .ok ⟨[⟨"b", 2, "srv", "expense", "c", 1, 9⟩], 50⟩⟩
          ⟨none, [⟨"a", 1, "old", "expense", "c", 1, 1⟩]⟩).1.localTxs.map
            LocalTx.id).Nodup
    ∧ (∀ t ∈ [(⟨"b", 2, "srv", "expense", "c", 1, 9⟩ : LocalTx)],
        ∃ e ∈ (performSync
            ⟨.err, .ok ⟨[⟨"b", 2, "srv", "expense", "c", 1, 9⟩], 50⟩⟩
            ⟨none, [⟨"a", 1, "old", "expense", "c", 1, 1⟩]⟩).1.localTxs,
          e.id = t.id)
    ∧ (performSync ⟨.err, .ok ⟨[⟨"b", 2, "srv", "expense", "c", 1, 9⟩], 50⟩⟩
        (performSync ⟨.err, .ok ⟨[⟨"b", 2, "srv", "expense", "c", 1, 9⟩], 50⟩⟩
          ⟨none, [⟨"a", 1, "old", "expense", "c", 1, 1⟩]⟩).1).1.localTxs
      = (performSync ⟨.err, .ok ⟨[⟨"b", 2, "srv", "expense", "c", 1, 9⟩], 50⟩⟩
          ⟨none, [⟨"a", 1, "old", "expense", "c", 1, 1⟩]⟩).1.localTxs :=
  client_merge_dedup
    ⟨.err, .ok ⟨[⟨"b", 2, "srv", "expense", "c", 1, 9⟩], 50⟩⟩
    ⟨.err, .ok ⟨[⟨"b", 2, "srv", "expense", "c", 1, 9⟩], 50⟩⟩
    ⟨none, [⟨"a", 1, "old", "expense", "c", 1, 1⟩]⟩
    ⟨[⟨"b", 2, "srv", "expense", "c", 1, 9⟩], 50⟩
    rfl rfl rfl (by decide) (by decide)

/-- Counterexample to C4 as stated: the pulled value for an already-known id
is not merged over the local entry — the stale local value is kept and the
pulled value dropped. -/
theorem merge_no_overwrite_cex :
    (performSync ⟨.err, .ok ⟨[⟨"a", 2, "new", "expense", "c", 1, 9⟩], 99⟩⟩
        ⟨none, [⟨"a", 1, "old", "expense", "c", 1, 1⟩]⟩).1.localTxs
      = [⟨"a", 1, "old", "expense", "c", 1, 1⟩]
    ∧ (⟨"a", 2, "new", "expense", "c", 1, 9⟩ : LocalTx)
        ∉ (performSync ⟨.err, .ok ⟨[⟨"a", 2, "new", "expense", "c", 1, 9⟩], 99⟩⟩
            ⟨none, [⟨"a", 1, "old", "expense", "c", 1, 1⟩]⟩).1.localTxs
    ∧ (⟨"a", 1, "old", "expense", "c", 1, 1⟩ : LocalTx)
        ≠ ⟨"a", 2, "new", "expense", "c", 1, 9⟩ := by
  decide

end ExpenseSync
